import Mathlib

/-!
Verification of the DistChat overlay networking engine
(`src/DistributedChat.py`) against its specification.

The Python program is shallowly embedded as follows.

* A socket object is a `Conn`: it carries a model identity `id`
  (standing for Python object identity), the remote endpoint returned by
  `getpeername()`, and the local-address host returned by
  `getsockname()`.
* A decoded JSON object on the wire is a `WireMsg`: the program only
  ever reads the keys `user`, `message` and `clients`, each of which may
  be absent (`Option`); a missing-key access (`data['user']`) raises a
  Python `KeyError`, modelled with `Except PyErr`.
* The bytes returned by one `recv` call fall into exactly three classes
  the program distinguishes: empty (`len(data) == 0`), non-empty but not
  a well-formed JSON object (`json.loads` / `decode` raises), or a
  well-formed JSON object.  These are the three constructors of `Chunk`;
  the `json.dumps`/`json.loads` pair of the standard library is taken at
  its contract of faithfully round-tripping JSON objects, so the model
  works at the JSON-object level (`WireMsg`) rather than on raw bytes.
* `ChatServer`'s mutable attributes become the fields of `ServerState`.
  Python's `dict` (insertion-ordered, unique keys) is modelled as an
  association list with the update/delete/lookup operations `dictSet`,
  `dictDel`, `dictGet`; Python's `list.remove` (first occurrence,
  `ValueError` when absent) is `listRemove`.  The ever-present listening
  socket, head of the Python `inputs` list, is factored out: `inputs`
  here holds the peer connections, and readiness on the listening socket
  is the `handleAccept` event.
* `queue.Queue` is a FIFO list: `put` appends at the tail, `get` pops
  the head.
-/

/-- Python errors that the engine's operations can raise. -/
inductive PyErr where
  | valueError      -- list.remove on an absent element
  | keyError        -- dict[...] on an absent key
  | jsonDecodeError -- json.loads / bytes.decode on malformed input
deriving DecidableEq, Repr

/-- A socket: model identity, `getpeername()` endpoint, `getsockname()` host.
For sockets created by `connect_to` the local address is assigned by the
operating system and is opaque to the model (recorded as `""`). -/
structure Conn where
  id : Nat
  peerHost : String
  peerPort : Nat
  sockHost : String
deriving DecidableEq, Repr

/-- The JSON object carried by one wire message: the three keys the program
reads, each possibly absent.  `clients` is a list of `(host, port)` pairs. -/
structure WireMsg where
  user : Option String
  message : Option String
  clients : Option (List (String × Nat))
deriving DecidableEq, Repr

/-- The three classes of byte chunk one `recv(1024)` call can return, as
distinguished by `ChatServer.run` (lines 90-92). -/
inductive Chunk where
  | empty                 -- len(data) == 0
  | malformed             -- json.loads(data.decode()) raises
  | json (w : WireMsg)    -- a well-formed JSON object
deriving DecidableEq, Repr

/-- The four message variants of the wire protocol (spec section 3). -/
inductive Message where
  | chat (user text : String)
  | leave (user : String)
  | membershipRequest
  | membershipResponse (peers : List (String × Nat))
deriving DecidableEq, Repr

/-- The literal `'\exit'` of the source (a Python string of six characters,
backslash included: `\e` is not an escape Python recognises). -/
def exitLit : String := "\\exit"

/-- The literal `'\clients'` of the source. -/
def clientsLit : String := "\\clients"

instance [DecidableEq ε] [DecidableEq α] : DecidableEq (Except ε α) := fun x y =>
  match x, y with
  | .ok a, .ok b =>
    if h : a = b then isTrue (congrArg Except.ok h)
    else isFalse (fun hh => h (Except.ok.inj hh))
  | .error a, .error b =>
    if h : a = b then isTrue (congrArg Except.error h)
    else isFalse (fun hh => h (Except.error.inj hh))
  | .ok _, .error _ => isFalse (fun hh => Except.noConfusion hh)
  | .error _, .ok _ => isFalse (fun hh => Except.noConfusion hh)

/-- Python `dict` lookup without raising: `l[k]` when present. -/
def dictGet [DecidableEq α] : List (α × β) → α → Option β
  | [], _ => none
  | p :: ps, k => if p.1 = k then some p.2 else dictGet ps k

/-- Python `dict` assignment `l[k] = v`: replace the entry in place when the
key is present (dicts keep insertion order on overwrite), append otherwise. -/
def dictSet [DecidableEq α] : List (α × β) → α → β → List (α × β)
  | [], k, v => [(k, v)]
  | p :: ps, k, v => if p.1 = k then (k, v) :: ps else p :: dictSet ps k v

/-- Python `del l[k]`: remove the entry, `KeyError` when the key is absent. -/
def dictDel [DecidableEq α] : List (α × β) → α → Except PyErr (List (α × β))
  | [], _ => .error .keyError
  | p :: ps, k =>
    if p.1 = k then .ok ps else (dictDel ps k).map (fun r => p :: r)

/-- Python `list.remove(a)`: drop the first occurrence, `ValueError` when
absent. -/
def listRemove [DecidableEq α] : List α → α → Except PyErr (List α)
  | [], _ => .error .valueError
  | x :: xs, a =>
    if x = a then .ok xs else (listRemove xs a).map (fun r => x :: r)

/-- The keys of an association list, in order. -/
def keys (l : List (α × β)) : List α := l.map Prod.fst

/-- A single-quote character, for rendering Python tuple `repr`s. -/
def pyQuote : String := String.singleton (Char.ofNat 39)

/-- Python's rendering of an address tuple inside `str.format`, e.g. the
text produced for `('10.0.0.2', 55000)`. -/
def pyAddr (h : String) (p : Nat) : String :=
  "(" ++ pyQuote ++ h ++ pyQuote ++ ", " ++ toString p ++ ")"

/-- Transcript notice appended on accepting a non-loopback connection
(line 84: `'New connection from {}'.format(client_address)`). -/
def newConnNotice (h : String) (p : Nat) : String :=
  "New connection from " ++ pyAddr h p

/-- Transcript notice appended on a `'\exit'` message (line 104:
`'({}) {} has left the chat'.format(data['user'], in_socket.getpeername())`). -/
def leaveNotice (u h : String) (p : Nat) : String :=
  "(" ++ u ++ ") " ++ pyAddr h p ++ " has left the chat"

/-- Transcript line for an ordinary chat message (line 117:
`'({}) : {}'.format(data['user'], data['message'])`). -/
def chatLine (u m : String) : String :=
  "(" ++ u ++ ") : " ++ m

/-- The mutable state of `ChatServer` (lines 37-53).  `inputs` holds the
peer connections (the listening socket, always the head of the Python list,
is handled by the `handleAccept` event); `message_queues` maps each socket
to its outbound FIFO; `clients` is the peer registry mapping each socket to
its `getpeername()` endpoint; `messages` is the transcript. -/
structure ServerState where
  inputs : List Conn
  outputs : List Conn
  message_queues : List (Conn × List WireMsg)
  clients : List (Conn × (String × Nat))
  messages : List String
  port : Nat
deriving DecidableEq, Repr

/-- `ChatServer.__init__(port)` (lines 37-53): empty connection tables,
empty transcript, listening port recorded. -/
def initialServer (port : Nat) : ServerState :=
  ⟨[], [], [], [], [], port⟩

/-- `ChatServer.add_connection` (lines 145-155): register the socket in
`inputs`, `outputs`, give it a fresh empty queue, and record its endpoint
in `clients`.  (`setblocking(0)` has no counterpart in the model.) -/
def add_connection (s : ServerState) (c : Conn) : ServerState :=
  ⟨s.inputs ++ [c], s.outputs ++ [c],
   dictSet s.message_queues c [],
   dictSet s.clients c (c.peerHost, c.peerPort),
   s.messages, s.port⟩

/-- `ChatServer.remove_connection` (lines 157-165): remove the socket from
`outputs`, `inputs`, `message_queues` and `clients`, in that order; each
step raises if the socket is absent (`sock.close()` is external I/O). -/
def remove_connection (s : ServerState) (c : Conn) : Except PyErr ServerState := do
  let outs ← listRemove s.outputs c
  let ins ← listRemove s.inputs c
  let mq ← dictDel s.message_queues c
  let cls ← dictDel s.clients c
  .ok ⟨ins, outs, mq, cls, s.messages, s.port⟩

/-- `ChatServer.output_message` (lines 174-179): put the message on every
outbound queue. -/
def output_message (s : ServerState) (m : WireMsg) : ServerState :=
  ⟨s.inputs, s.outputs,
   s.message_queues.map (fun p => (p.1, p.2 ++ [m])),
   s.clients, s.messages, s.port⟩

/-- `ChatServer.send_message` (lines 181-185): put the message on one
socket's queue; `KeyError` if the socket has no queue. -/
def send_message (s : ServerState) (m : WireMsg) (c : Conn) :
    Except PyErr ServerState :=
  match dictGet s.message_queues c with
  | none => .error .keyError
  | some q =>
    .ok ⟨s.inputs, s.outputs, dictSet s.message_queues c (q ++ [m]),
         s.clients, s.messages, s.port⟩

/-- `ChatServer.connect_to` (lines 137-143): open a fresh socket to
`(host, port)` and admit it via `add_connection`.  The fresh socket's model
identity is drawn from the counter `ctr` (standing for Python object
identity); its local address is assigned by the OS and opaque here. -/
def connect_to (s : ServerState) (ctr : Nat) (host : String) (port : Nat) :
    ServerState × Nat :=
  (add_connection s ⟨ctr, host, port, ""⟩, ctr + 1)

/-- The variant classification performed inline by `ChatServer.run` on a
decoded JSON object (lines 93-117), in source order: a `clients` key means
a membership response, whatever else the object holds; otherwise the
`message` field is read (`KeyError` when absent), and the literals
`'\exit'` and `'\clients'` select leave and membership-request; anything
else is a chat line, whose `user` field is then read. -/
def decodeMsg (w : WireMsg) : Except PyErr Message :=
  match w.clients with
  | some peers => .ok (.membershipResponse peers)
  | none =>
    match w.message with
    | none => .error .keyError
    | some m =>
      if m = exitLit then
        match w.user with
        | none => .error .keyError
        | some u => .ok (.leave u)
      else if m = clientsLit then .ok .membershipRequest
      else
        match w.user with
        | none => .error .keyError
        | some u => .ok (.chat u m)

/-- `encode`: the JSON objects the program builds for each variant —
chat at line 255 (`{'user': self.user, 'message': string}`), leave at
line 265 (`{'user': self.user, 'message': '\exit'}`), membership request
at line 229 (`{'user': self.user, 'message': '\clients'}`), membership
response at lines 110-112 (`{'clients': [...]}`).  Every send site uses
`self.user`, passed here as `selfUser`; `Chat` and `Leave` carry it as
their `user` field, a `MembershipRequest` carries it on the wire but the
receiver never reads it. -/
def encodeMsg (selfUser : String) : Message → WireMsg
  | .chat u t => ⟨some u, some t, none⟩
  | .leave u => ⟨some u, some exitLit, none⟩
  | .membershipRequest => ⟨some selfUser, some clientsLit, none⟩
  | .membershipResponse peers => ⟨none, none, some peers⟩

/-- The arguments of the `connect_to` calls made by the membership-response
branch (lines 98-101), in order: one call per listed `(host, port)` whose
host is neither `'127.0.0.1'` nor `ourhost` (the receiving socket's local
address) — and each call passes `self.port`, the node's own listening port,
not the listed port. -/
def membershipConnects (ourhost : String) (selfPort : Nat)
    (peers : List (String × Nat)) : List (String × Nat) :=
  peers.foldl
    (fun acc hp =>
      if hp.1 ≠ "127.0.0.1" ∧ ourhost ≠ hp.1 then acc ++ [(hp.1, selfPort)]
      else acc) []

/-- The read-readiness handler of `ChatServer.run` for a peer socket
(lines 89-119).  An empty chunk is ignored (the `if len(data) > 0` guard
has no else branch); a malformed chunk raises out of the loop
(`json.loads` is not wrapped in any handler); a well-formed object is
classified as in `decodeMsg` and acted on:
membership response → `connect_to` each admissible entry (with `self.port`);
leave → transcript notice, then `remove_connection`;
membership request → reply on the same socket with the registry's endpoint
list; chat → append the rendered line to the transcript.
`ctr` threads the fresh-socket identity counter of the model. -/
def handleRead (s : ServerState) (ctr : Nat) (c : Conn) (chunk : Chunk) :
    Except PyErr (ServerState × Nat) :=
  match chunk with
  | .empty => .ok (s, ctr)
  | .malformed => .error .jsonDecodeError
  | .json w =>
    match decodeMsg w with
    | .error e => .error e
    | .ok (.membershipResponse peers) =>
      .ok (peers.foldl
        (fun acc hp =>
          if hp.1 ≠ "127.0.0.1" ∧ c.sockHost ≠ hp.1 then
            connect_to acc.1 acc.2 hp.1 acc.1.port
          else acc) (s, ctr))
    | .ok (.leave u) =>
      (remove_connection
        ⟨s.inputs, s.outputs, s.message_queues, s.clients,
         s.messages ++ [leaveNotice u c.peerHost c.peerPort], s.port⟩ c).map
        (fun s2 => (s2, ctr))
    | .ok .membershipRequest =>
      (send_message s ⟨none, none, some (s.clients.map Prod.snd)⟩ c).map
        (fun s2 => (s2, ctr))
    | .ok (.chat u m) =>
      .ok (⟨s.inputs, s.outputs, s.message_queues, s.clients,
            s.messages ++ [chatLine u m], s.port⟩, ctr)

/-- The accept branch of `ChatServer.run` (lines 79-87): a transcript
notice for non-loopback peers, then `add_connection`. -/
def handleAccept (s : ServerState) (c : Conn) : ServerState :=
  let s1 :=
    if c.peerHost ≠ "127.0.0.1" then
      (⟨s.inputs, s.outputs, s.message_queues, s.clients,
        s.messages ++ [newConnNotice c.peerHost c.peerPort], s.port⟩ : ServerState)
    else s
  add_connection s1 c

/-- The write-readiness handler of `ChatServer.run` (lines 73-76): when the
socket's queue is non-empty, pop exactly one message and send it.  The
returned option is the message written to the socket, if any.  Looking up
the queue of an unknown socket raises `KeyError`, as in the source. -/
def handleWritable (s : ServerState) (c : Conn) :
    Except PyErr (ServerState × Option WireMsg) :=
  match dictGet s.message_queues c with
  | none => .error .keyError
  | some [] => .ok (s, none)
  | some (m :: rest) =>
    .ok (⟨s.inputs, s.outputs, dictSet s.message_queues c rest,
          s.clients, s.messages, s.port⟩, some m)

/-- The state a `ChatClient` owns (lines 191-207): its user name, listening
port and the engine state of its `ChatServer`. -/
structure ClientState where
  user : String
  port : Nat
  srv : ServerState
deriving DecidableEq, Repr

/-- `ChatClient.__init__` as seen by the engine (lines 202-207): a fresh
`ChatServer` is started and the client opens a loopback TCP connection to
it; on the engine thread that connection arrives as an accept event, so the
node's own socket is admitted exactly like a peer connection.  `selfConn`
is the accepted loopback socket. -/
def startupNode (user : String) (port : Nat) (selfConn : Conn) : ClientState :=
  ⟨user, port, handleAccept (initialServer port) selfConn⟩

/-- `ChatClient.do_connect` as seen by the engine (lines 214-231): the old
`ChatServer` is killed and its state discarded, a fresh one is started, the
client reconnects its loopback socket (an accept event delivered later on
the engine thread, not part of this call), then `connect_to(host, port)`
runs and the `'\clients'` membership request is broadcast with
`output_message` to every queue of the new engine. -/
def do_connect (cl : ClientState) (host : String) (port : Nat) (ctr : Nat) :
    ClientState × Nat :=
  let s0 := initialServer cl.port
  let r1 := connect_to s0 ctr host port
  let req : WireMsg := ⟨some cl.user, some clientsLit, none⟩
  (⟨cl.user, cl.port, output_message r1.1 req⟩, r1.2)

/-- The consistency invariant of the three connection structures (spec
section 3, Peer Registry): no duplicate handles, and a handle is in the
registry exactly when it is in the connection set and in the queue map. -/
def EngineInv (s : ServerState) : Prop :=
  s.inputs.Nodup ∧ s.outputs.Nodup ∧
  (keys s.message_queues).Nodup ∧ (keys s.clients).Nodup ∧
  ∀ c : Conn,
    (c ∈ keys s.clients ↔ c ∈ s.inputs) ∧
    (c ∈ keys s.clients ↔ c ∈ s.outputs) ∧
    (c ∈ keys s.clients ↔ c ∈ keys s.message_queues)

/-- Demonstration sockets for concrete evaluations: an inbound connection
from a remote peer, the client's own loopback connection, and a second
remote connection. -/
def connB : Conn := ⟨0, "10.0.0.2", 55000, "10.0.0.1"⟩

def connSelf : Conn := ⟨1, "127.0.0.1", 54321, "127.0.0.1"⟩

def connX : Conn := ⟨2, "10.0.0.7", 41000, "10.0.0.1"⟩

/-- Demonstration chat messages for concrete evaluations. -/
def msgHi : WireMsg := ⟨some "bob", some "hi", none⟩

def msgYo : WireMsg := ⟨some "bob", some "yo", none⟩

/-- A chat message is safe for the wire exactly when its text collides with
neither of the two magic literals the dispatcher tests for. -/
def chatSafe : Message → Bool
  | .chat _ t => !(t == exitLit) && !(t == clientsLit)
  | _ => true

/-! ## Library lemmas about the Python dict and list operations -/

theorem dictSet_cons_eq [DecidableEq α] {p : α × β} {ps : List (α × β)}
    {k : α} {v : β} (h : p.1 = k) : dictSet (p :: ps) k v = (k, v) :: ps := by
  simp [dictSet, h]

theorem dictSet_cons_ne [DecidableEq α] {p : α × β} {ps : List (α × β)}
    {k : α} {v : β} (h : ¬ p.1 = k) :
    dictSet (p :: ps) k v = p :: dictSet ps k v := by
  simp [dictSet, h]

theorem dictDel_cons_eq [DecidableEq α] {p : α × β} {ps : List (α × β)}
    {k : α} (h : p.1 = k) : dictDel (p :: ps) k = .ok ps := by
  simp [dictDel, h]

theorem dictDel_cons_ne [DecidableEq α] {p : α × β} {ps : List (α × β)}
    {k : α} (h : ¬ p.1 = k) :
    dictDel (p :: ps) k = (dictDel ps k).map (fun r => p :: r) := by
  simp [dictDel, h]

theorem listRemove_cons_eq [DecidableEq α] {x : α} {xs : List α} {a : α}
    (h : x = a) : listRemove (x :: xs) a = .ok xs := by
  simp [listRemove, h]

theorem listRemove_cons_ne [DecidableEq α] {x : α} {xs : List α} {a : α}
    (h : ¬ x = a) :
    listRemove (x :: xs) a = (listRemove xs a).map (fun r => x :: r) := by
  simp [listRemove, h]

theorem dictGet_dictSet_self [DecidableEq α] (l : List (α × β)) (k : α) (v : β) :
    dictGet (dictSet l k v) k = some v := by
  induction l with
  | nil => simp [dictSet, dictGet]
  | cons p ps ih =>
    by_cases h : p.1 = k
    · rw [dictSet_cons_eq h]
      simp [dictGet]
    · rw [dictSet_cons_ne h]
      simp [dictGet, h, ih]

theorem dictGet_map_snd [DecidableEq α] (f : β → γ) (l : List (α × β)) (k : α) :
    dictGet (l.map (fun p => (p.1, f p.2))) k = (dictGet l k).map f := by
  induction l with
  | nil => simp [dictGet]
  | cons p ps ih =>
    by_cases h : p.1 = k <;> simp [dictGet, h, ih]

theorem mem_keys_dictSet [DecidableEq α] (l : List (α × β)) (k : α) (v : β)
    (x : α) : x ∈ keys (dictSet l k v) ↔ x ∈ keys l ∨ x = k := by
  induction l with
  | nil => simp [dictSet, keys]
  | cons p ps ih =>
    by_cases h : p.1 = k
    · rw [dictSet_cons_eq h]
      simp only [keys, List.map_cons, List.mem_cons, ← h]
      tauto
    · rw [dictSet_cons_ne h]
      simp only [keys, List.map_cons, List.mem_cons] at ih ⊢
      rw [ih]
      tauto

theorem keys_dictSet_nodup [DecidableEq α] (l : List (α × β)) (k : α) (v : β)
    (h : (keys l).Nodup) : (keys (dictSet l k v)).Nodup := by
  induction l with
  | nil => simp [dictSet, keys]
  | cons p ps ih =>
    simp only [keys, List.map_cons, List.nodup_cons] at h
    obtain ⟨h1, h2⟩ := h
    by_cases hk : p.1 = k
    · rw [dictSet_cons_eq hk]
      simp only [keys, List.map_cons, List.nodup_cons]
      rw [← hk]
      exact ⟨h1, h2⟩
    · rw [dictSet_cons_ne hk]
      simp only [keys, List.map_cons, List.nodup_cons]
      refine ⟨fun hx => ?_, ih h2⟩
      rcases (mem_keys_dictSet ps k v p.1).1 hx with h' | h'
      · exact h1 h'
      · exact hk h'

theorem listRemove_not_mem [DecidableEq α] {l : List α} {a : α} (h : a ∉ l) :
    listRemove l a = .error .valueError := by
  induction l with
  | nil => rfl
  | cons x xs ih =>
    simp only [List.mem_cons, not_or] at h
    obtain ⟨h1, h2⟩ := h
    have hx : ¬ x = a := fun hh => h1 hh.symm
    rw [listRemove_cons_ne hx, ih h2]
    rfl

theorem listRemove_ok [DecidableEq α] {l l' : List α} {a : α}
    (hn : l.Nodup) (h : listRemove l a = .ok l') :
    l'.Nodup ∧ ∀ x, x ∈ l' ↔ x ∈ l ∧ x ≠ a := by
  induction l generalizing l' with
  | nil => simp [listRemove] at h
  | cons y ys ih =>
    rw [List.nodup_cons] at hn
    obtain ⟨hy, hys⟩ := hn
    by_cases hya : y = a
    · rw [listRemove_cons_eq hya, Except.ok.injEq] at h
      subst h
      subst hya
      refine ⟨hys, fun x => ⟨fun hx => ?_, fun hx => ?_⟩⟩
      · exact ⟨List.mem_cons_of_mem _ hx, fun hxy => hy (hxy ▸ hx)⟩
      · rcases List.mem_cons.1 hx.1 with h' | h'
        · exact absurd h' hx.2
        · exact h'
    · rw [listRemove_cons_ne hya] at h
      cases hr : listRemove ys a with
      | error e => rw [hr] at h; simp [Except.map] at h
      | ok r =>
        rw [hr] at h
        simp only [Except.map, Except.ok.injEq] at h
        subst h
        obtain ⟨hrn, hrm⟩ := ih hys hr
        refine ⟨?_, fun x => ?_⟩
        · rw [List.nodup_cons]
          exact ⟨fun hyr => hy ((hrm y).1 hyr).1, hrn⟩
        · simp only [List.mem_cons, hrm x]
          constructor
          · rintro (rfl | ⟨hx, hxa⟩)
            · exact ⟨Or.inl rfl, hya⟩
            · exact ⟨Or.inr hx, hxa⟩
          · rintro ⟨rfl | hx, hxa⟩
            · exact Or.inl rfl
            · exact Or.inr ⟨hx, hxa⟩

theorem dictDel_ok [DecidableEq α] {l l' : List (α × β)} {k : α}
    (hn : (keys l).Nodup) (h : dictDel l k = .ok l') :
    (keys l').Nodup ∧ ∀ x, x ∈ keys l' ↔ x ∈ keys l ∧ x ≠ k := by
  induction l generalizing l' with
  | nil => simp [dictDel] at h
  | cons p ps ih =>
    simp only [keys, List.map_cons, List.nodup_cons] at hn
    obtain ⟨hp, hps⟩ := hn
    by_cases hpk : p.1 = k
    · rw [dictDel_cons_eq hpk, Except.ok.injEq] at h
      subst h
      refine ⟨hps, fun x => ⟨fun hx => ?_, fun hx => ?_⟩⟩
      · refine ⟨List.mem_cons_of_mem _ hx, fun hxk => ?_⟩
        rw [hxk, ← hpk] at hx
        exact hp hx
      · rcases List.mem_cons.1 hx.1 with h' | h'
        · rw [h', hpk] at hx
          exact absurd rfl hx.2
        · exact h'
    · rw [dictDel_cons_ne hpk] at h
      cases hr : dictDel ps k with
      | error e => rw [hr] at h; simp [Except.map] at h
      | ok r =>
        rw [hr] at h
        simp only [Except.map, Except.ok.injEq] at h
        subst h
        obtain ⟨hrn, hrm⟩ := ih hps hr
        refine ⟨?_, fun x => ?_⟩
        · simp only [keys, List.map_cons, List.nodup_cons]
          exact ⟨fun hyr => hp ((hrm p.1).1 hyr).1, hrn⟩
        · simp only [keys, List.map_cons, List.mem_cons] at hrm ⊢
          rw [hrm x]
          constructor
          · rintro (rfl | ⟨hx, hxa⟩)
            · exact ⟨Or.inl rfl, hpk⟩
            · exact ⟨Or.inr hx, hxa⟩
          · rintro ⟨rfl | hx, hxa⟩
            · exact Or.inl rfl
            · exact Or.inr ⟨hx, hxa⟩

/-! ## Invariant preservation of the connection structures -/

theorem inv_initialServer (p : Nat) : EngineInv (initialServer p) := by
  refine ⟨List.nodup_nil, List.nodup_nil, List.nodup_nil, List.nodup_nil,
    fun c => ?_⟩
  simp [initialServer, keys]

theorem add_connection_inv {s : ServerState} {c : Conn}
    (h : EngineInv s) (hc : c ∉ s.inputs) :
    EngineInv (add_connection s c) ∧
      c ∈ (add_connection s c).inputs ∧
      c ∈ (add_connection s c).outputs ∧
      c ∈ keys (add_connection s c).message_queues ∧
      c ∈ keys (add_connection s c).clients := by
  obtain ⟨hIn, hOut, hMq, hCl, hIff⟩ := h
  have hcCl : c ∉ keys s.clients := fun hx => hc ((hIff c).1.1 hx)
  have hcOut : c ∉ s.outputs := fun hx => hc ((hIff c).1.1 ((hIff c).2.1.2 hx))
  refine ⟨⟨?_, ?_, ?_, ?_, fun x => ?_⟩, ?_, ?_, ?_, ?_⟩
  · simp only [add_connection]
    rw [List.nodup_append]
    exact ⟨hIn, List.nodup_singleton c,
      fun a ha hb => by rw [List.mem_singleton] at hb; exact hc (hb ▸ ha)⟩
  · simp only [add_connection]
    rw [List.nodup_append]
    exact ⟨hOut, List.nodup_singleton c,
      fun a ha hb => by rw [List.mem_singleton] at hb; exact hcOut (hb ▸ ha)⟩
  · exact keys_dictSet_nodup _ _ _ hMq
  · exact keys_dictSet_nodup _ _ _ hCl
  · obtain ⟨i1, i2, i3⟩ := hIff x
    simp only [add_connection, mem_keys_dictSet, List.mem_append,
      List.mem_singleton]
    rw [← i1, ← i2, ← i3] at *
    tauto
  · simp [add_connection]
  · simp [add_connection]
  · simp [add_connection, mem_keys_dictSet]
  · simp [add_connection, mem_keys_dictSet]

theorem remove_connection_ok {s : ServerState} {c : Conn} {s' : ServerState}
    (h : EngineInv s) (hr : remove_connection s c = .ok s') :
    EngineInv s' ∧ c ∉ s'.inputs ∧ c ∉ s'.outputs ∧
      c ∉ keys s'.message_queues ∧ c ∉ keys s'.clients ∧
      s'.messages = s.messages ∧ s'.port = s.port := by
  obtain ⟨hIn, hOut, hMq, hCl, hIff⟩ := h
  unfold remove_connection at hr
  cases h1 : listRemove s.outputs c with
  | error e => rw [h1] at hr; exact absurd hr (by simp [Bind.bind, Except.bind])
  | ok outs =>
  rw [h1] at hr
  cases h2 : listRemove s.inputs c with
  | error e => rw [h2] at hr; exact absurd hr (by simp [Bind.bind, Except.bind])
  | ok ins =>
  rw [h2] at hr
  cases h3 : dictDel s.message_queues c with
  | error e => rw [h3] at hr; exact absurd hr (by simp [Bind.bind, Except.bind])
  | ok mq =>
  rw [h3] at hr
  cases h4 : dictDel s.clients c with
  | error e => rw [h4] at hr; exact absurd hr (by simp [Bind.bind, Except.bind])
  | ok cls =>
  rw [h4] at hr
  simp only [Bind.bind, Except.bind, Except.ok.injEq] at hr
  subst hr
  obtain ⟨hOutN, hOutM⟩ := listRemove_ok hOut h1
  obtain ⟨hInN, hInM⟩ := listRemove_ok hIn h2
  obtain ⟨hMqN, hMqM⟩ := dictDel_ok hMq h3
  obtain ⟨hClN, hClM⟩ := dictDel_ok hCl h4
  refine ⟨⟨hInN, hOutN, hMqN, hClN, fun x => ?_⟩, ?_, ?_, ?_, ?_, rfl, rfl⟩
  · obtain ⟨i1, i2, i3⟩ := hIff x
    rw [hClM x, hInM x, hOutM x, hMqM x]
    tauto
  · exact fun hx => ((hInM c).1 hx).2 rfl
  · exact fun hx => ((hOutM c).1 hx).2 rfl
  · exact fun hx => ((hMqM c).1 hx).2 rfl
  · exact fun hx => ((hClM c).1 hx).2 rfl

theorem remove_connection_twice {s : ServerState} {c : Conn} {s' : ServerState}
    (h : EngineInv s) (hr : remove_connection s c = .ok s') :
    remove_connection s' c = .error .valueError := by
  obtain ⟨-, -, hOutAbs, -, -, -, -⟩ := remove_connection_ok h hr
  unfold remove_connection
  rw [listRemove_not_mem hOutAbs]
  rfl

/-! ## Behavioural lemmas about the engine operations -/

theorem dictGet_output_message (s : ServerState) (m : WireMsg) (c : Conn) :
    dictGet (output_message s m).message_queues c =
      (dictGet s.message_queues c).map (fun q => q ++ [m]) := by
  simp only [output_message]
  exact dictGet_map_snd (fun q => q ++ [m]) s.message_queues c

theorem membershipConnects_eq (ourhost : String) (selfPort : Nat)
    (peers : List (String × Nat)) :
    membershipConnects ourhost selfPort peers =
      (peers.filter
        (fun hp => decide (hp.1 ≠ "127.0.0.1" ∧ ourhost ≠ hp.1))).map
        (fun hp => (hp.1, selfPort)) := by
  unfold membershipConnects
  suffices h : ∀ (ps : List (String × Nat)) (acc : List (String × Nat)),
      ps.foldl
        (fun acc hp =>
          if hp.1 ≠ "127.0.0.1" ∧ ourhost ≠ hp.1 then acc ++ [(hp.1, selfPort)]
          else acc) acc =
        acc ++ (ps.filter
          (fun hp => decide (hp.1 ≠ "127.0.0.1" ∧ ourhost ≠ hp.1))).map
          (fun hp => (hp.1, selfPort)) by
    simpa using h peers []
  intro ps
  induction ps with
  | nil => intro acc; simp
  | cons hp t ih =>
    intro acc
    by_cases hc : hp.1 ≠ "127.0.0.1" ∧ ourhost ≠ hp.1
    · rw [List.foldl_cons, if_pos hc, ih, List.filter_cons,
        if_pos (by simpa using hc)]
      simp [List.append_assoc]
    · rw [List.foldl_cons, if_neg hc, ih, List.filter_cons,
        if_neg (by simpa using hc)]

/-! ## Claim theorems -/

/-- C1: the claim says a zero-length read or a decode failure tears down
exactly the offending connection while the event loop keeps running, and
that no per-connection error ever propagates out of the loop.  The code
does neither: evaluated at a state holding one registered connection, a
zero-length read leaves the state completely unchanged — the dead
connection stays in the registry, the connection set, and the queue map —
and an undecodable chunk makes `json.loads` raise a `JSONDecodeError`
that nothing in the loop catches, so the error propagates out of the
read dispatch and kills the loop. -/
theorem C1_read_failure_behavior :
    handleRead (handleAccept (initialServer 2017) connX) 0 connX .empty
      = .ok (handleAccept (initialServer 2017) connX, 0) ∧
    dictGet (handleAccept (initialServer 2017) connX).clients connX
      = some ("10.0.0.7", 41000) ∧
    handleRead (handleAccept (initialServer 2017) connX) 0 connX .malformed
      = .error .jsonDecodeError :=
  ⟨rfl, by decide, rfl⟩

/-- C2 counterexample: the claim says the membership-response entry
`(hostA, pA) = ("10.0.0.9", 7000)` yields the call
`connectTo("10.0.0.9", 7000)`.  In fact the loop body passes `self.port`
(line 101), here 2017, so the one call made is `("10.0.0.9", 2017)` and
the claimed call never happens. -/
theorem C2_counterexample :
    membershipConnects "10.0.0.1" 2017
        [("127.0.0.1", 4000), ("10.0.0.1", 2017), ("10.0.0.9", 7000)]
      = [("10.0.0.9", 2017)] ∧
    ("10.0.0.9", 7000) ∉ membershipConnects "10.0.0.1" 2017
        [("127.0.0.1", 4000), ("10.0.0.1", 2017), ("10.0.0.9", 7000)] := by
  constructor
  · decide
  · decide

/-- C2 (amended): on a `MembershipResponse{peers}`, the node calls
`connect_to(host, selfPort)` — with its own listening port, not the
listed one — exactly for the entries whose host is neither the loopback
address nor the node's own address, in list order; the triple of the
claim therefore yields exactly one call, `("10.0.0.9", 2017)`. -/
theorem C2_gossip_connect_calls :
    (∀ (ourhost : String) (selfPort : Nat) (peers : List (String × Nat)),
      membershipConnects ourhost selfPort peers =
        (peers.filter
          (fun hp => decide (hp.1 ≠ "127.0.0.1" ∧ ourhost ≠ hp.1))).map
          (fun hp => (hp.1, selfPort))) ∧
    membershipConnects "10.0.0.1" 2017
        [("127.0.0.1", 4000), ("10.0.0.1", 2017), ("10.0.0.9", 7000)]
      = [("10.0.0.9", 2017)] :=
  ⟨membershipConnects_eq, by decide⟩

/-- C3 counterexample: the claim says encode-then-decode reproduces every
message of every variant.  A `Chat` whose text is the literal `'\exit'`
is decoded as a `Leave` — the text field is not reproduced. -/
theorem C3_counterexample :
    decodeMsg (encodeMsg "bob" (.chat "bob" exitLit)) = .ok (.leave "bob") ∧
    decodeMsg (encodeMsg "bob" (.chat "bob" exitLit))
      ≠ .ok (.chat "bob" exitLit) := by
  constructor
  · decide
  · decide

/-- C3 (amended): encode-then-decode reproduces the identical field
values for every `Leave`, `MembershipRequest` and `MembershipResponse`,
and for every `Chat` whose text is neither of the magic literals
`'\exit'` and `'\clients'`. -/
theorem C3_roundtrip (su : String) (m : Message) (h : chatSafe m = true) :
    decodeMsg (encodeMsg su m) = .ok m := by
  cases m with
  | chat u t =>
    simp only [chatSafe, Bool.and_eq_true, Bool.not_eq_true',
      beq_eq_false_iff_ne, ne_eq] at h
    obtain ⟨h1, h2⟩ := h
    simp [encodeMsg, decodeMsg, h1, h2]
  | leave u => simp [encodeMsg, decodeMsg]
  | membershipRequest =>
    simp [encodeMsg, decodeMsg]
    decide
  | membershipResponse peers => simp [encodeMsg, decodeMsg]

theorem C3_roundtrip_witness :
    decodeMsg (encodeMsg "bob" (.chat "bob" "hi")) = .ok (.chat "bob" "hi") :=
  C3_roundtrip "bob" (.chat "bob" "hi") (by decide)

/-- C9: inbound dispatch discriminates by field presence and magic text,
in this order — any object with a `clients` key is a membership response
whatever else it holds; otherwise `message = '\exit'` is a leave and
`message = '\clients'` is a membership request; consequently a chat whose
text equals either literal is never dispatched as a chat. -/
theorem C9_dispatch_order :
    (∀ (w : WireMsg) (cs : List (String × Nat)), w.clients = some cs →
      decodeMsg w = .ok (.membershipResponse cs)) ∧
    (∀ (w : WireMsg) (u : String), w.clients = none → w.user = some u →
      w.message = some exitLit → decodeMsg w = .ok (.leave u)) ∧
    (∀ (w : WireMsg), w.clients = none → w.message = some clientsLit →
      decodeMsg w = .ok .membershipRequest) ∧
    (∀ (su u u2 t2 : String),
      decodeMsg (encodeMsg su (.chat u exitLit)) ≠ .ok (.chat u2 t2) ∧
      decodeMsg (encodeMsg su (.chat u clientsLit)) ≠ .ok (.chat u2 t2)) := by
  refine ⟨fun w cs hcs => ?_, fun w u hcs hu hm => ?_,
    fun w hcs hm => ?_, fun su u u2 t2 => ⟨?_, ?_⟩⟩
  · simp [decodeMsg, hcs]
  · obtain ⟨wu, wm, wc⟩ := w
    simp only at hcs hu hm
    subst hcs; subst hu; subst hm
    simp [decodeMsg]
  · obtain ⟨wu, wm, wc⟩ := w
    simp only at hcs hm
    subst hcs; subst hm
    simp [decodeMsg]
    intro hfalse
    exact absurd hfalse (by decide)
  · simp only [encodeMsg, decodeMsg]
    rw [if_pos trivial]
    simp
  · simp only [encodeMsg, decodeMsg]
    rw [if_neg (by decide : ¬ (clientsLit = exitLit))]
    simp

theorem C9_dispatch_order_witness :
    decodeMsg ⟨some "a", some "hi", some [("10.0.0.9", 7000)]⟩
        = .ok (.membershipResponse [("10.0.0.9", 7000)]) ∧
    decodeMsg ⟨some "a", some exitLit, none⟩ = .ok (.leave "a") ∧
    decodeMsg ⟨some "a", some clientsLit, none⟩ = .ok .membershipRequest ∧
    decodeMsg (encodeMsg "a" (.chat "a" exitLit)) ≠ .ok (.chat "a" exitLit) :=
  ⟨C9_dispatch_order.1 _ _ rfl,
   C9_dispatch_order.2.1 _ "a" rfl rfl rfl,
   C9_dispatch_order.2.2.1 _ rfl rfl,
   (C9_dispatch_order.2.2.2 "a" "a" "a" exitLit).1⟩

theorem broadcast_fifo (ms : List WireMsg) :
    ∀ (s : ServerState) (c : Conn) (q : List WireMsg),
      dictGet s.message_queues c = some q →
      dictGet ((ms.foldl output_message s).message_queues) c = some (q ++ ms) := by
  induction ms with
  | nil => intro s c q h; simpa using h
  | cons m ms ih =>
    intro s c q h
    rw [List.foldl_cons]
    have h2 : dictGet (output_message s m).message_queues c = some (q ++ [m]) := by
      rw [dictGet_output_message, h]
      rfl
    rw [ih (output_message s m) c (q ++ [m]) h2]
    simp

/-- C4: every broadcast appends the message to every registered Outbound
Queue, so any sequence of broadcasts reaches each queue in exactly the
broadcast order (FIFO per connection); a broadcast over an empty
connection set changes nothing; and one write-readiness notification pops
at most one message — exactly the head — from that connection's queue. -/
theorem C4_outbound_queue_fifo :
    (∀ (s : ServerState) (ms : List WireMsg) (c : Conn) (q : List WireMsg),
      dictGet s.message_queues c = some q →
      dictGet ((ms.foldl output_message s).message_queues) c = some (q ++ ms)) ∧
    (∀ (s : ServerState) (m : WireMsg),
      s.message_queues = [] → output_message s m = s) ∧
    (∀ (s : ServerState) (c : Conn) (q : List WireMsg),
      dictGet s.message_queues c = some q →
      ∃ s2, handleWritable s c = .ok (s2, q.head?) ∧
        dictGet s2.message_queues c = some (q.drop 1)) := by
  refine ⟨fun s ms c q h => broadcast_fifo ms s c q h,
    fun s m h => ?_, fun s c q h => ?_⟩
  · unfold output_message
    rw [h]
    simp only [List.map_nil]
    rw [← h]
  · cases q with
    | nil =>
      refine ⟨s, ?_, ?_⟩
      · simp [handleWritable, h]
      · simpa using h
    | cons m rest =>
      refine ⟨⟨s.inputs, s.outputs, dictSet s.message_queues c rest,
        s.clients, s.messages, s.port⟩, ?_, ?_⟩
      · simp [handleWritable, h]
      · simp [dictGet_dictSet_self]

theorem C4_outbound_queue_fifo_witness :
    dictGet (([msgHi, msgYo].foldl output_message
        (add_connection (initialServer 2017) connX)).message_queues) connX
      = some ([] ++ [msgHi, msgYo]) ∧
    output_message (initialServer 2017) msgHi = initialServer 2017 ∧
    (∃ s2, handleWritable (add_connection (initialServer 2017) connX) connX
        = .ok (s2, ([] : List WireMsg).head?) ∧
      dictGet s2.message_queues connX = some (([] : List WireMsg).drop 1)) :=
  ⟨C4_outbound_queue_fifo.1 (add_connection (initialServer 2017) connX)
      [msgHi, msgYo] connX [] (by decide),
   C4_outbound_queue_fifo.2.1 (initialServer 2017) msgHi rfl,
   C4_outbound_queue_fifo.2.2 (add_connection (initialServer 2017) connX)
      connX [] (by decide)⟩

/-- C5: the three connection structures stay consistent — under the
engine invariant, admitting a fresh connection registers it in the
connection set, the queue map and the registry at once and preserves the
invariant, and a successful teardown removes it from all three at once
and preserves the invariant (so between loop steps a handle is in the
registry exactly when it is in the other two structures). -/
theorem C5_registry_consistency :
    (∀ (s : ServerState) (c : Conn), EngineInv s → c ∉ s.inputs →
      EngineInv (add_connection s c) ∧ c ∈ (add_connection s c).inputs ∧
        c ∈ (add_connection s c).outputs ∧
        c ∈ keys (add_connection s c).message_queues ∧
        c ∈ keys (add_connection s c).clients) ∧
    (∀ (s : ServerState) (c : Conn) (s2 : ServerState), EngineInv s →
      remove_connection s c = .ok s2 →
      EngineInv s2 ∧ c ∉ s2.inputs ∧ c ∉ s2.outputs ∧
        c ∉ keys s2.message_queues ∧ c ∉ keys s2.clients) :=
  ⟨fun _ _ h hc => add_connection_inv h hc,
   fun _ _ _ h hr =>
     ⟨(remove_connection_ok h hr).1, (remove_connection_ok h hr).2.1,
      (remove_connection_ok h hr).2.2.1, (remove_connection_ok h hr).2.2.2.1,
      (remove_connection_ok h hr).2.2.2.2.1⟩⟩

theorem C5_registry_consistency_witness :
    EngineInv (add_connection (initialServer 2017) connX) ∧
    EngineInv (initialServer 2017) :=
  ⟨(C5_registry_consistency.1 (initialServer 2017) connX
      (inv_initialServer 2017) (by decide)).1,
   (C5_registry_consistency.2 (add_connection (initialServer 2017) connX)
      connX (initialServer 2017)
      (C5_registry_consistency.1 (initialServer 2017) connX
        (inv_initialServer 2017) (by decide)).1
      (by decide)).1⟩

/-- C6 counterexample: the claim says a second teardown of the same
handle is a no-op that does not fail.  Tearing the demonstration
connection down twice shows the second call raises: `outputs.remove`
hits an absent element and the teardown fails with `ValueError`. -/
theorem C6_counterexample :
    remove_connection (add_connection (initialServer 2017) connX) connX
      = .ok (initialServer 2017) ∧
    remove_connection (initialServer 2017) connX = .error .valueError := by
  constructor
  · decide
  · decide

/-- C6 (amended): teardown is not idempotent — under the engine
invariant, after a successful teardown of a handle, tearing the same
handle down again always fails with `ValueError` instead of being a
no-op. -/
theorem C6_teardown_second_call_fails :
    ∀ (s : ServerState) (c : Conn) (s2 : ServerState), EngineInv s →
      remove_connection s c = .ok s2 →
      remove_connection s2 c = .error .valueError :=
  fun _ _ _ h hr => remove_connection_twice h hr

theorem C6_teardown_second_call_fails_witness :
    remove_connection (initialServer 2017) connX = .error .valueError :=
  C6_teardown_second_call_fails (add_connection (initialServer 2017) connX)
    connX (initialServer 2017)
    ((add_connection_inv (inv_initialServer 2017)
      (by decide : connX ∉ (initialServer 2017).inputs)).1)
    (by decide)

/-- C7 counterexample: the claim's scenario says a fresh node A answers
B's `MembershipRequest` with `MembershipResponse{peers: []}`.  By the
time the request is handled, A's registry already holds B's own inbound
connection (admitted on accept), so the reply enqueued for B lists B's
endpoint — it is not the empty list. -/
theorem C7_counterexample :
    (handleRead (handleAccept (initialServer 7000) connB) 0 connB
        (.json ⟨some "b", some clientsLit, none⟩)).map
        (fun pr => dictGet pr.1.message_queues connB)
      = .ok (some [⟨none, none, some [("10.0.0.2", 55000)]⟩]) ∧
    (handleRead (handleAccept (initialServer 7000) connB) 0 connB
        (.json ⟨some "b", some clientsLit, none⟩)).map
        (fun pr => dictGet pr.1.message_queues connB)
      ≠ .ok (some [⟨none, none, some []⟩]) := by
  constructor
  · decide
  · decide

/-- C7 (amended): on a `MembershipRequest` received on a connection that
has a queue, the node enqueues on that same connection exactly one
`MembershipResponse` whose peers list is the current Peer Registry's
endpoint list — which, in the fresh-node scenario, already contains the
requester's own connection endpoint, so the reply is never `[]` there. -/
theorem C7_membership_reply (s : ServerState) (ctr : Nat) (c : Conn)
    (q : List WireMsg) (u : String)
    (h : dictGet s.message_queues c = some q) :
    handleRead s ctr c (.json ⟨some u, some clientsLit, none⟩)
      = .ok (⟨s.inputs, s.outputs,
             dictSet s.message_queues c
               (q ++ [⟨none, none, some (s.clients.map Prod.snd)⟩]),
             s.clients, s.messages, s.port⟩, ctr) := by
  have hdec : decodeMsg ⟨some u, some clientsLit, none⟩
      = .ok .membershipRequest := by
    simp [decodeMsg]
    decide
  simp [handleRead, hdec, send_message, h, Except.map]

theorem C7_membership_reply_witness :
    handleRead (handleAccept (initialServer 7000) connB) 0 connB
        (.json ⟨some "b", some clientsLit, none⟩)
      = .ok (⟨[connB], [connB],
             [(connB, [⟨none, none, some [("10.0.0.2", 55000)]⟩])],
             [(connB, ("10.0.0.2", 55000))],
             [newConnNotice "10.0.0.2" 55000], 7000⟩, 0) :=
  C7_membership_reply (handleAccept (initialServer 7000) connB) 0 connB []
    "b" (by decide)

/-- C8 counterexample: the claim says `requestConnect` leaves the
engine's other active connections in place.  Starting from a client
whose engine holds the active connection `connX`, `do_connect` kills and
reboots the engine: `connX` is gone from the new registry. -/
theorem C8_counterexample :
    connX ∈ keys (handleAccept (initialServer 2017) connX).clients ∧
    connX ∉ keys ((do_connect
        ⟨"alice", 2017, handleAccept (initialServer 2017) connX⟩
        "10.0.0.9" 7000 5).1).srv.clients := by
  constructor
  · decide
  · decide

/-- C8 (amended): `requestConnect(host, port)` restarts the engine —
discarding every previously active connection and the transcript — and
only then invokes `connect_to(host, port)` followed by a broadcast
`MembershipRequest`; afterwards the new engine's only connection is the
fresh outbound one, with the membership request as the sole message on
its queue (issued immediately after the join's first outbound
connection). -/
theorem C8_requestConnect (cl : ClientState) (host : String) (port ctr : Nat) :
    ((do_connect cl host port ctr).1).srv.inputs = [⟨ctr, host, port, ""⟩] ∧
    ((do_connect cl host port ctr).1).srv.clients
      = [(⟨ctr, host, port, ""⟩, (host, port))] ∧
    dictGet ((do_connect cl host port ctr).1).srv.message_queues
        ⟨ctr, host, port, ""⟩
      = some [⟨some cl.user, some clientsLit, none⟩] ∧
    ((do_connect cl host port ctr).1).srv.messages = [] := by
  refine ⟨?_, ?_, ?_, ?_⟩ <;>
    simp [do_connect, connect_to, add_connection, initialServer,
      output_message, dictSet, dictGet]

/-- C10 counterexample: the claim says the broadcast echo enqueued to the
node's own engine is how the local transcript receives the node's own
messages.  Processing that echo does not touch the transcript: the
engine's only action on the enqueued copy is to pop it and write it back
to the client's loopback socket (which the client never reads), leaving
the transcript empty; the rendered line enters the transcript only
through the client's separate direct `sock.send`, read back by the
engine as an inbound chat. -/
theorem C10_counterexample :
    handleWritable
        (output_message (startupNode "bob" 2017 connSelf).srv msgHi) connSelf
      = .ok ((startupNode "bob" 2017 connSelf).srv, some msgHi) ∧
    (startupNode "bob" 2017 connSelf).srv.messages = [] ∧
    (handleRead (startupNode "bob" 2017 connSelf).srv 0 connSelf
        (.json msgHi)).map (fun pr => pr.1.messages)
      = .ok ["(bob) : hi"] := by
  refine ⟨by decide, by decide, by decide⟩

/-- C10 (amended): at startup the node's own loopback connection is
admitted into the connection set, queue map and registry exactly like a
peer connection, and every broadcast is also enqueued on that
self-connection's queue; but draining that echo merely writes it back to
the client's socket and leaves the engine state (transcript included)
unchanged — the transcript line for the node's own chat is produced by
the inbound read of the client's directly-sent copy. -/
theorem C10_self_connection (u : String) (p : Nat) (c : Conn) (t : String)
    (h1 : ¬ t = exitLit) (h2 : ¬ t = clientsLit) :
    c ∈ (startupNode u p c).srv.inputs ∧
    c ∈ (startupNode u p c).srv.outputs ∧
    dictGet (startupNode u p c).srv.message_queues c = some [] ∧
    dictGet (startupNode u p c).srv.clients c
      = some (c.peerHost, c.peerPort) ∧
    (∀ m : WireMsg,
      dictGet (output_message (startupNode u p c).srv m).message_queues c
        = some [m]) ∧
    handleWritable
        (output_message (startupNode u p c).srv (encodeMsg u (.chat u t))) c
      = .ok ((startupNode u p c).srv, some (encodeMsg u (.chat u t))) ∧
    handleRead (startupNode u p c).srv 0 c (.json (encodeMsg u (.chat u t)))
      = .ok (⟨(startupNode u p c).srv.inputs,
             (startupNode u p c).srv.outputs,
             (startupNode u p c).srv.message_queues,
             (startupNode u p c).srv.clients,
             (startupNode u p c).srv.messages ++ [chatLine u t],
             (startupNode u p c).srv.port⟩, 0) := by
  have hsrv : ∃ M, (startupNode u p c).srv
      = ⟨[c], [c], [(c, [])], [(c, (c.peerHost, c.peerPort))], M, p⟩ := by
    by_cases hlo : c.peerHost = "127.0.0.1"
    · exact ⟨[], by simp [startupNode, handleAccept, hlo, add_connection,
        initialServer, dictSet]⟩
    · exact ⟨[newConnNotice c.peerHost c.peerPort],
        by simp [startupNode, handleAccept, hlo, add_connection,
          initialServer, dictSet]⟩
  obtain ⟨M, hM⟩ := hsrv
  have hdec : decodeMsg (encodeMsg u (.chat u t)) = .ok (.chat u t) := by
    simp [encodeMsg, decodeMsg, h1, h2]
  rw [hM]
  refine ⟨by simp, by simp, by simp [dictGet], by simp [dictGet],
    fun m => ?_, ?_, ?_⟩
  · simp [output_message, dictGet]
  · simp [output_message, handleWritable, dictGet, dictSet]
  · simp [handleRead, hdec]

theorem C10_self_connection_witness :
    dictGet (startupNode "bob" 2017 connSelf).srv.clients connSelf
      = some ("127.0.0.1", 54321) :=
  (C10_self_connection "bob" 2017 connSelf "hi" (by decide)
    (by decide)).2.2.2.1
